import Mathlib

/-
Verification development for the crypto-stock-analyzer repository.

The development shallowly embeds the two algorithmic cores of the
repository:

* `src/crypto_data_fetcher.py` — the retry/backoff/failover data
  acquisition layer (`CryptoDataFetcher`).  HTTP attempts are modelled by
  an environment function `Nat → AttemptOutcome` giving each attempt's
  classified outcome; the retry loops, the provider ordering, the
  granularity translation table and the backoff arithmetic are translated
  directly from the source.  Machine floats are modelled by `ℚ`.

* `src/technical_analyzer.py` — the indicator engine
  (`calculate_all_indicators` and the per-family calculators) and the
  signal scorer (`generate_trading_signals`).  The `ta` library calls are
  third-party code; they are modelled as pure rational-arithmetic
  functions following the formulas the library implements (floating point
  rounding and exotic NaN-propagation corners are abstracted; none of the
  claims depends on them).  The scorer is embedded rule by rule, including
  the surrounding try/except that swallows a mid-sequence exception and
  returns the partially built signal dictionary.
-/

/-! ### Canonical bars and provider candle records -/

/-- One raw candle record as delivered by a provider:
`[timestamp_ms, open, high, low, close, volume, …]` with the numeric
coercions `int(kline[0])`, `float(kline[1])` … already applied. -/
structure RawCandle where
  ts : Int
  o : ℚ
  h : ℚ
  l : ℚ
  c : ℚ
  v : ℚ
deriving DecidableEq

/-- One row of the canonical OHLCV frame produced by the converters
(`timestamp` index plus the Open/High/Low/Close/Volume columns). -/
structure Bar where
  ts : Int
  o : ℚ
  h : ℚ
  l : ℚ
  c : ℚ
  v : ℚ
deriving DecidableEq

/-- The per-record body of both converters: build the row dict from the
positional candle fields. -/
def rawToBar (k : RawCandle) : Bar :=
  { ts := k.ts, o := k.o, h := k.h, l := k.l, c := k.c, v := k.v }

/-- Comparison used by `df.sort_index()`: ascending timestamp order. -/
def tsLe (a b : Bar) : Prop := a.ts ≤ b.ts

instance : DecidableRel tsLe := fun a b => Int.decLe a.ts b.ts

instance : IsTotal Bar tsLe := ⟨fun a b => Int.le_total a.ts b.ts⟩

instance : IsTrans Bar tsLe := ⟨fun _ _ _ hab hbc => le_trans hab hbc⟩

/-- `CryptoDataFetcher._convert_bitget_to_ohlcv`: map every record to a
row, then `df.sort_index()` — sort ascending by timestamp. -/
def convert_bitget_to_ohlcv (data : List RawCandle) : List Bar :=
  List.insertionSort tsLe (data.map rawToBar)

/-- `CryptoDataFetcher._convert_binance_to_ohlcv`: map every record to a
row and set the timestamp index; this converter does NOT sort. -/
def convert_binance_to_ohlcv (data : List RawCandle) : List Bar :=
  data.map rawToBar

/-! ### The retry loop and provider failover -/

/-- The retryable failure classes of the error taxonomy.  In the source,
`network`/`rateLimited`/`malformed` all surface as exceptions caught by
the `except Exception` arm of an attempt, while `empty` is the
"empty data or API error" else-branch; all four let the `for attempt in
range(self.retry_count)` loop continue. -/
inductive FailKind
  | network
  | rateLimited
  | empty
  | malformed
deriving DecidableEq

/-- The classified outcome of one HTTP attempt: either the success branch
was taken (well-formed payload with the given records) or the attempt
failed with one of the retryable classes. -/
inductive AttemptOutcome
  | ok (recs : List RawCandle)
  | fail (k : FailKind)
deriving DecidableEq

/-- `true` exactly on the non-success outcomes. -/
def AttemptOutcome.isFailure : AttemptOutcome → Bool
  | .ok _ => false
  | .fail _ => true

/-- The `for attempt in range(retry_count)` loop of
`get_crypto_data_bitget` / `get_crypto_data_binance`: attempt `start` is
classified by the environment `o`; a success converts and returns
immediately, any failure falls through to the next attempt; when the
budget (`fuel`) is exhausted the provider returns `None`. -/
def fetchLoop (convert : List RawCandle → List Bar)
    (o : Nat → AttemptOutcome) : Nat → Nat → Option (List Bar)
  | _, 0 => none
  | start, fuel + 1 =>
    match o start with
    | .ok recs => some (convert recs)
    | .fail _ => fetchLoop convert o (start + 1) fuel

/-- `CryptoDataFetcher.get_crypto_data_bitget`, with the per-attempt
outcomes supplied by the environment `o`. -/
def get_crypto_data_bitget (o : Nat → AttemptOutcome) (retry_count : Nat) :
    Option (List Bar) :=
  fetchLoop convert_bitget_to_ohlcv o 0 retry_count

/-- `CryptoDataFetcher.get_crypto_data_binance`, with the per-attempt
outcomes supplied by the environment `o`. -/
def get_crypto_data_binance (o : Nat → AttemptOutcome) (retry_count : Nat) :
    Option (List Bar) :=
  fetchLoop convert_binance_to_ohlcv o 0 retry_count

/-- `CryptoDataFetcher.get_crypto_data`: try Bitget first; on `None` fall
over to Binance with the same (fresh) retry budget; on `None` again
return `None`. -/
def get_crypto_data (oBitget oBinance : Nat → AttemptOutcome)
    (retry_count : Nat) : Option (List Bar) :=
  match get_crypto_data_bitget oBitget retry_count with
  | some df => some df
  | none => get_crypto_data_binance oBinance retry_count

/-! ### Granularity translation (Bitget token → Binance interval) -/

/-- First-match association-list lookup (Python `dict.get`). -/
def lookupPairs {α : Type} : List (String × α) → String → Option α
  | [], _ => none
  | (k, v) :: rest, key => if k = key then some v else lookupPairs rest key

/-- The `granularity_map` literal of `get_crypto_data` (Bitget format →
Binance format). -/
def granularity_map : List (String × String) :=
  [("1min", "1m"), ("5min", "5m"), ("15min", "15m"), ("30min", "30m"),
   ("1h", "1h"), ("4h", "4h"), ("6h", "6h"), ("12h", "12h"),
   ("1day", "1d"), ("1week", "1w")]

/-- `granularity_map.get(granularity, '1d')`: the Binance interval used by
the fallback path; an unmapped token silently becomes `'1d'`. -/
def binance_interval (granularity : String) : String :=
  (lookupPairs granularity_map granularity).getD ("1d")

/-- Modelled from the spec: the duration, in minutes, of each token of the
canonical granularity vocabulary
{1min,5min,15min,30min,1hour,4hour,6hour,12hour,1day,1week} (§6), plus
the short forms the code itself accepts.  The repository has no such
duration table; it is needed only to state what "nearest coarser
supported value" means. -/
def canonicalMinutes : String → Option Nat := fun g =>
  lookupPairs
    [("1min", 1), ("5min", 5), ("15min", 15), ("30min", 30),
     ("1h", 60), ("1hour", 60), ("4h", 240), ("4hour", 240),
     ("6h", 360), ("6hour", 360), ("12h", 720), ("12hour", 720),
     ("1day", 1440), ("1week", 10080)] g

/-- The Binance interval vocabulary with durations in minutes, as listed
in the `get_crypto_data_binance` docstring. -/
def binanceSupported : List (String × Nat) :=
  [("1m", 1), ("3m", 3), ("5m", 5), ("15m", 15), ("30m", 30),
   ("1h", 60), ("2h", 120), ("4h", 240), ("6h", 360), ("8h", 480),
   ("12h", 720), ("1d", 1440), ("3d", 4320), ("1w", 10080), ("1M", 43200)]

/-- The entry of least duration in a list of (token, minutes) pairs. -/
def pickMinDuration (l : List (String × Nat)) : Option (String × Nat) :=
  l.foldl
    (fun acc p =>
      match acc with
      | none => some p
      | some q => if p.2 < q.2 then some p else some q)
    none

/-- Modelled from the spec: "falls back to the nearest coarser supported
value" — among the provider's supported intervals of duration at least
the canonical token's duration, the one of least duration. -/
def nearestCoarserBinance (g : String) : Option String :=
  (canonicalMinutes g).bind fun d =>
    (pickMinDuration (binanceSupported.filter fun p => d ≤ p.2)).map
      fun p => p.1

/-! ### Backoff arithmetic -/

/-- `delay = self.retry_delay * (2 ** attempt) + random.uniform(1, 3)`
(Bitget) and `… + random.uniform(1, 2)` (Binance): the backoff delay
computed after the failure of 0-indexed attempt `k`, i.e. the delay slept
before attempt `k + 1`.  `j` is the sampled jitter. -/
def backoff_delay (base : ℚ) (k : Nat) (j : ℚ) : ℚ :=
  base * 2 ^ k + j

/-- `delay = max(delay, 10 + random.uniform(5, 15))`: the Bitget delay
when the failure was rate limiting (`"429"`/`"rate limit"`), with `jr`
the sampled floor jitter. -/
def bitget_rate_limited_delay (base : ℚ) (k : Nat) (j jr : ℚ) : ℚ :=
  max (backoff_delay base k j) (10 + jr)

/-- `delay = max(delay, 5 + random.uniform(2, 8))`: the Binance delay
when the failure was rate limiting. -/
def binance_rate_limited_delay (base : ℚ) (k : Nat) (j jr : ℚ) : ℚ :=
  max (backoff_delay base k j) (5 + jr)

/-! ### Python fixed-point formatting (`f"{x:.1f}"`, `f"{x:.2f}"`) -/

/-- Round `a / b` (with `b > 0`) to the nearest integer, ties to even —
the rounding Python's fixed-point format applies. -/
def roundHalfEvenScaled (a b : Int) : Int :=
  let f := Int.fdiv a b
  let r2 := 2 * (a - f * b)
  if r2 < b then f
  else if b < r2 then f + 1
  else if f % 2 = 0 then f else f + 1

/-- Digits of `m` scaled by `10 ^ d`, with the decimal point inserted and
the fractional part zero-padded to exactly `d` digits. -/
def formatNatFixed (d m : Nat) : String :=
  if d = 0 then toString m
  else
    let frac := toString (m % 10 ^ d)
    let pad := String.mk (List.replicate (d - frac.length) '0')
    toString (m / 10 ^ d) ++ "." ++ pad ++ frac

/-- Python `format(q, '.df')` on an exactly representable value: scale by
`10 ^ d`, round half-to-even, print with `d` fractional digits. -/
def formatFixed (d : Nat) (q : ℚ) : String :=
  let n := roundHalfEvenScaled (q.num * (10 : Int) ^ d) (q.den : Int)
  if n < 0 then "-" ++ formatNatFixed d (-n).toNat
  else formatNatFixed d n.toNat

/-! ### The signal scorer (`generate_trading_signals`) -/

/-- The `signals` dictionary: `{'buy': [], 'sell': [], 'neutral': [],
'score': 0}`, built up by the rule sequence. -/
structure SignalState where
  buy : List String
  sell : List String
  neutral : List String
  score : Int
deriving DecidableEq

/-- The empty initial `signals` dictionary. -/
def initialSignals : SignalState := ⟨[], [], [], 0⟩

/-- The indicator values `generate_trading_signals` reads at the latest
(and, for MACD, previous) index.  The outer `Option` is key presence in
`self.indicators` (a missing key raises `KeyError` into the surrounding
`except`); the inner `Option` is the value, `none` standing for NaN
(`pd.isna`).  For the MACD pair the two components are
(current, previous). -/
structure IndicatorSnapshot where
  rsi14 : Option (Option ℚ)
  macd : Option (Option ℚ × Option ℚ)
  macdSignal : Option (Option ℚ × Option ℚ)
  bbPercent : Option (Option ℚ)
  sma20 : Option (Option ℚ)
  sma50 : Option (Option ℚ)
  williamsR : Option (Option ℚ)
  mfi : Option (Option ℚ)
deriving DecidableEq

/-- RSI rule: buy below 30, sell above 70, otherwise a neutral entry;
skipped when the value is NaN. -/
def applyRsi (rv : Option ℚ) (s : SignalState) : SignalState :=
  match rv with
  | none => s
  | some r =>
    if r < 30 then
      { s with buy := s.buy ++ ["RSI超卖 (" ++ formatFixed 1 r ++ ")"],
               score := s.score + 20 }
    else if r > 70 then
      { s with sell := s.sell ++ ["RSI超买 (" ++ formatFixed 1 r ++ ")"],
               score := s.score - 20 }
    else
      { s with neutral := s.neutral ++ ["RSI正常 (" ++ formatFixed 1 r ++ ")"] }

/-- MACD crossover rule on (current, previous) of MACD and its signal
line; skipped when any of the four values is NaN. -/
def applyMacd (mc sc mp sp : Option ℚ) (s : SignalState) : SignalState :=
  match mc, sc, mp, sp with
  | some a, some b, some c, some d =>
    if a > b ∧ c ≤ d then
      { s with buy := s.buy ++ ["MACD金叉"], score := s.score + 25 }
    else if a < b ∧ c ≥ d then
      { s with sell := s.sell ++ ["MACD死叉"], score := s.score - 25 }
    else s
  | _, _, _, _ => s

/-- Bollinger percent-b rule; skipped when the value is NaN. -/
def applyBb (bv : Option ℚ) (s : SignalState) : SignalState :=
  match bv with
  | none => s
  | some b =>
    if b > mkRat 8 10 then
      { s with sell := s.sell ++ ["布林带高位 (" ++ formatFixed 2 b ++ ")"],
               score := s.score - 15 }
    else if b < mkRat 2 10 then
      { s with buy := s.buy ++ ["布林带低位 (" ++ formatFixed 2 b ++ ")"],
               score := s.score + 15 }
    else s

/-- Moving-average rule on the close versus SMA20 and SMA50; skipped when
any of the three values is NaN. -/
def applySma (close m20 m50 : Option ℚ) (s : SignalState) : SignalState :=
  match close, m20, m50 with
  | some c, some a, some b =>
    if c > a ∧ c > b then
      { s with buy := s.buy ++ ["价格高于主要均线"], score := s.score + 15 }
    else if ¬c > a ∧ ¬c > b then
      { s with sell := s.sell ++ ["价格低于主要均线"], score := s.score - 15 }
    else s
  | _, _, _ => s

/-- Williams %R rule; skipped when the value is NaN. -/
def applyWr (wv : Option ℚ) (s : SignalState) : SignalState :=
  match wv with
  | none => s
  | some w =>
    if w > -20 then
      { s with sell := s.sell ++ ["Williams %R超买 (" ++ formatFixed 1 w ++ ")"],
               score := s.score - 10 }
    else if w < -80 then
      { s with buy := s.buy ++ ["Williams %R超卖 (" ++ formatFixed 1 w ++ ")"],
               score := s.score + 10 }
    else s

/-- MFI rule; skipped when the value is NaN. -/
def applyMfi (mv : Option ℚ) (s : SignalState) : SignalState :=
  match mv with
  | none => s
  | some m =>
    if m > 80 then
      { s with sell := s.sell ++ ["MFI超买 (" ++ formatFixed 1 m ++ ")"],
               score := s.score - 10 }
    else if m < 20 then
      { s with buy := s.buy ++ ["MFI超卖 (" ++ formatFixed 1 m ++ ")"],
               score := s.score + 10 }
    else s

/-- `TechnicalAnalyzer.generate_trading_signals` evaluated at the latest
index, rule by rule in source order.  A `none` at the outer level of a
snapshot field is a missing dictionary key: the `KeyError` it raises is
caught by the surrounding `except Exception`, which returns the signals
accumulated so far — every earlier rule's entries and score survive and
every later rule is skipped. -/
def generate_trading_signals (close : Option ℚ) (ind : IndicatorSnapshot) :
    SignalState :=
  match ind.rsi14 with
  | none => initialSignals
  | some rv =>
    let s1 := applyRsi rv initialSignals
    match ind.macd with
    | none => s1
    | some mcp =>
      match ind.macdSignal with
      | none => s1
      | some scp =>
        let s2 := applyMacd mcp.1 scp.1 mcp.2 scp.2 s1
        match ind.bbPercent with
        | none => s2
        | some bv =>
          let s3 := applyBb bv s2
          match ind.sma20 with
          | none => s3
          | some m20 =>
            match ind.sma50 with
            | none => s3
            | some m50 =>
              let s4 := applySma close m20 m50 s3
              match ind.williamsR with
              | none => s4
              | some wv =>
                let s5 := applyWr wv s4
                match ind.mfi with
                | none => s5
                | some mv => applyMfi mv s5

/-- Weight contributed by the RSI rule (0 when skipped or neutral). -/
def rsiDelta (rv : Option ℚ) : Int :=
  match rv with
  | none => 0
  | some r => if r < 30 then 20 else if r > 70 then -20 else 0

/-- Weight contributed by the MACD crossover rule. -/
def macdDelta (mc sc mp sp : Option ℚ) : Int :=
  match mc, sc, mp, sp with
  | some a, some b, some c, some d =>
    if a > b ∧ c ≤ d then 25 else if a < b ∧ c ≥ d then -25 else 0
  | _, _, _, _ => 0

/-- Weight contributed by the Bollinger percent-b rule. -/
def bbDelta (bv : Option ℚ) : Int :=
  match bv with
  | none => 0
  | some b => if b > mkRat 8 10 then -15 else if b < mkRat 2 10 then 15 else 0

/-- Weight contributed by the moving-average rule. -/
def smaDelta (close m20 m50 : Option ℚ) : Int :=
  match close, m20, m50 with
  | some c, some a, some b =>
    if c > a ∧ c > b then 15 else if ¬c > a ∧ ¬c > b then -15 else 0
  | _, _, _ => 0

/-- Weight contributed by the Williams %R rule. -/
def wrDelta (wv : Option ℚ) : Int :=
  match wv with
  | none => 0
  | some w => if w > -20 then -10 else if w < -80 then 10 else 0

/-- Weight contributed by the MFI rule. -/
def mfiDelta (mv : Option ℚ) : Int :=
  match mv with
  | none => 0
  | some m => if m > 80 then -10 else if m < 20 then 10 else 0

/-! ### The indicator engine (`TechnicalAnalyzer.calculate_all_indicators`)

The `ta` library calls are modelled as pure rational rolling/recursive
computations; indicators whose formulas need square roots (Bollinger
band widths, ATR-derived channels) or are orthogonal to every claim
(PSAR, Ichimoku, stochastics, CCI, ultimate oscillator, A/D, EMV) are
not reproduced — each family keeps a representative set.  The analyzer
object, its `self.indicators` dictionary and the update discipline of
`calculate_all_indicators` are translated exactly. -/

/-- One row of the analyzer's input DataFrame (the columns the modelled
indicators read). -/
structure Ohlc where
  high : ℚ
  low : ℚ
  close : ℚ
  vol : ℚ

/-- The trailing window of width `w` ending at index `i`. -/
def windowAt (w : Nat) (xs : List ℚ) (i : Nat) : List ℚ :=
  (xs.drop (i + 1 - w)).take w

/-- Rolling application of `f` with `min_periods = w`: positions before
the warm-up window are `none`. -/
def rollingApply (w : Nat) (f : List ℚ → ℚ) (xs : List ℚ) :
    List (Option ℚ) :=
  (List.range xs.length).map fun i =>
    if w ≤ i + 1 then some (f (windowAt w xs i)) else none

/-- `ta.trend.sma_indicator`: rolling arithmetic mean over `w` values. -/
def sma (w : Nat) (xs : List ℚ) : List (Option ℚ) :=
  rollingApply w (fun l => l.sum / w) xs

/-- Maximum of a window (`0` only on the empty list, which rolling use
never produces). -/
def winMax : List ℚ → ℚ
  | [] => 0
  | x :: rest => rest.foldl max x

/-- Minimum of a window. -/
def winMin : List ℚ → ℚ
  | [] => 0
  | x :: rest => rest.foldl min x

/-- Exponentially weighted recursion `y = α x + (1 - α) prev`
(`adjust=False`), continuing from `prev`. -/
def ewmFrom (α : ℚ) : ℚ → List ℚ → List ℚ
  | _, [] => []
  | prev, x :: rest =>
    let y := α * x + (1 - α) * prev
    y :: ewmFrom α y rest

/-- `pandas ewm(adjust=False)`: seeded at the first observation. -/
def ewmAdjFalse (α : ℚ) : List ℚ → List ℚ
  | [] => []
  | x :: rest => x :: ewmFrom α x rest

/-- Replace the first `k` entries by `none` (the `min_periods` mask). -/
def maskFirst (k : Nat) (l : List ℚ) : List (Option ℚ) :=
  (List.range l.length).zipWith (fun i x => if i < k then none else some x) l

/-- `ta.trend.ema_indicator`: `ewm(span=w, min_periods=w, adjust=False)`,
smoothing factor `2 / (w + 1)`. -/
def ema (w : Nat) (xs : List ℚ) : List (Option ℚ) :=
  maskFirst (w - 1) (ewmAdjFalse (2 / (w + 1)) xs)

/-- Pointwise difference of two indicator series (`none` wins). -/
def zipSub (a b : List (Option ℚ)) : List (Option ℚ) :=
  List.zipWith
    (fun x y =>
      match x, y with
      | some u, some v => some (u - v)
      | _, _ => none)
    a b

/-- `ta.trend.macd`: EMA12 − EMA26. -/
def macdLine (xs : List ℚ) : List (Option ℚ) :=
  zipSub (ema 12 xs) (ema 26 xs)

/-- Number of leading `none` (NaN) entries. -/
def leadNoneCount : List (Option ℚ) → Nat
  | [] => 0
  | none :: rest => leadNoneCount rest + 1
  | some _ :: _ => 0

/-- `ewm` over a series with a leading NaN prefix: pandas starts the
recursion at the first observation and counts `min_periods` from there. -/
def emaOfOpt (w : Nat) (l : List (Option ℚ)) : List (Option ℚ) :=
  let k := leadNoneCount l
  let vs := (l.drop k).filterMap id
  List.replicate k none ++ maskFirst (w - 1) (ewmAdjFalse (2 / (w + 1)) vs)

/-- `ta.trend.macd_signal`: EMA9 of the MACD line. -/
def macdSignalLine (xs : List ℚ) : List (Option ℚ) :=
  emaOfOpt 9 (macdLine xs)

/-- `ta.trend.macd_diff`: MACD − signal. -/
def macdHistogram (xs : List ℚ) : List (Option ℚ) :=
  zipSub (macdLine xs) (macdSignalLine xs)

/-- Successive differences `x_(i+1) - x_i`. -/
def diffs (xs : List ℚ) : List ℚ :=
  List.zipWith (fun a b => a - b) xs.tail xs

/-- `ta.momentum.rsi`: Wilder smoothing (`ewm(alpha=1/w, adjust=False)`)
of gains and losses, `RSI = 100 − 100 / (1 + RS)`; an all-gain window
(average loss zero) reads 100. -/
def rsiSeries (w : Nat) (xs : List ℚ) : List (Option ℚ) :=
  let d := diffs xs
  let ups := d.map fun x => max x 0
  let downs := d.map fun x => max (-x) 0
  let au := ewmAdjFalse (1 / w) ups
  let ad := ewmAdjFalse (1 / w) downs
  let vals := List.zipWith
    (fun u dn => if dn = 0 then 100 else 100 - 100 / (1 + u / dn)) au ad
  none :: maskFirst (w - 1) vals

/-- `ta.momentum.williams_r` (lookback 14):
`(highest_high − close) / (highest_high − lowest_low) * −100`. -/
def williamsSeries (highs lows closes : List ℚ) : List (Option ℚ) :=
  (List.range closes.length).map fun i =>
    if 14 ≤ i + 1 then
      let hh := winMax (windowAt 14 highs i)
      let ll := winMin (windowAt 14 lows i)
      some ((hh - (closes.getD i 0)) / (hh - ll) * (-100))
    else none

/-- `ta.momentum.roc` (window 10): percentage rate of change. -/
def rocSeries (xs : List ℚ) : List (Option ℚ) :=
  (List.range xs.length).map fun i =>
    if 10 ≤ i then
      some ((xs.getD i 0 - xs.getD (i - 10) 0) / xs.getD (i - 10) 0 * 100)
    else none

/-- `ta.volatility.donchian_channel_hband` (window 20): rolling maximum
of the highs. -/
def donchianHigh (highs : List ℚ) : List (Option ℚ) :=
  rollingApply 20 winMax highs

/-- `ta.volatility.donchian_channel_lband`: rolling minimum of the lows. -/
def donchianLow (lows : List ℚ) : List (Option ℚ) :=
  rollingApply 20 winMin lows

/-- `ta.volatility.donchian_channel_mband`: midpoint of the band. -/
def donchianMid (highs lows : List ℚ) : List (Option ℚ) :=
  List.zipWith
    (fun x y =>
      match x, y with
      | some u, some v => some ((u + v) / 2)
      | _, _ => none)
    (donchianHigh highs) (donchianLow lows)

/-- `ta.volume.on_balance_volume`: cumulative sum of
`np.where(close < close.shift(1), -volume, volume)`; the first term (whose
shifted comparison is with NaN, hence false) enters positively. -/
def obvAux (prevClose acc : ℚ) : List ℚ → List ℚ → List ℚ
  | c :: cs, v :: vs =>
    let acc' := if c < prevClose then acc - v else acc + v
    acc' :: obvAux c acc' cs vs
  | _, _ => []

/-- OBV over the close and volume columns. -/
def obvSeries (closes vols : List ℚ) : List (Option ℚ) :=
  match closes, vols with
  | c :: cs, v :: vs => (some v) :: (obvAux c v cs vs).map some
  | _, _ => []

/-- Typical prices `(high + low + close) / 3`. -/
def typicalPrices (d : List Ohlc) : List ℚ :=
  d.map fun r => (r.high + r.low + r.close) / 3

/-- `ta.volume.money_flow_index` (window 14): ratio of the rolling sums
of up-flow and down-flow money (`typical price × volume`), mapped through
`100 − 100 / (1 + ratio)`; a window with zero down-flow reads 100. -/
def mfiSeries (d : List Ohlc) : List (Option ℚ) :=
  let tps := typicalPrices d
  let vols := d.map Ohlc.vol
  let flows := List.zipWith (fun t v => t * v) tps vols
  let upflow := List.zipWith (fun dtp f => if 0 < dtp then f else 0)
    (diffs tps) flows.tail
  let dnflow := List.zipWith (fun dtp f => if dtp < 0 then f else 0)
    (diffs tps) flows.tail
  (List.range d.length).map fun i =>
    if 15 ≤ i + 1 then
      let up := (windowAt 14 upflow (i - 1)).sum
      let dn := (windowAt 14 dnflow (i - 1)).sum
      some (if dn = 0 then 100 else 100 - 100 / (1 + up / dn))
    else none

/-- `ta.volume.volume_weighted_average_price` (window 14): rolling sum of
`typical price × volume` over the rolling sum of volume. -/
def vwapSeries (d : List Ohlc) : List (Option ℚ) :=
  let tps := typicalPrices d
  let vols := d.map Ohlc.vol
  let tpv := List.zipWith (fun t v => t * v) tps vols
  (List.range d.length).map fun i =>
    if 14 ≤ i + 1 then
      some ((windowAt 14 tpv i).sum / (windowAt 14 vols i).sum)
    else none

/-- The dictionary built by `calculate_trend_indicators`. -/
def trend_indicator_list (d : List Ohlc) :
    List (String × List (Option ℚ)) :=
  let closes := d.map Ohlc.close
  [("SMA_5", sma 5 closes), ("SMA_10", sma 10 closes),
   ("SMA_20", sma 20 closes), ("SMA_50", sma 50 closes),
   ("SMA_100", sma 100 closes), ("SMA_200", sma 200 closes),
   ("EMA_12", ema 12 closes), ("EMA_26", ema 26 closes),
   ("EMA_50", ema 50 closes),
   ("MACD", macdLine closes), ("MACD_signal", macdSignalLine closes),
   ("MACD_histogram", macdHistogram closes)]

/-- The dictionary built by `calculate_momentum_indicators`. -/
def momentum_indicator_list (d : List Ohlc) :
    List (String × List (Option ℚ)) :=
  let closes := d.map Ohlc.close
  [("RSI_14", rsiSeries 14 closes), ("RSI_21", rsiSeries 21 closes),
   ("Williams_R", williamsSeries (d.map Ohlc.high) (d.map Ohlc.low) closes),
   ("Momentum", rocSeries closes)]

/-- The dictionary built by `calculate_volatility_indicators`. -/
def volatility_indicator_list (d : List Ohlc) :
    List (String × List (Option ℚ)) :=
  [("Donchian_high", donchianHigh (d.map Ohlc.high)),
   ("Donchian_low", donchianLow (d.map Ohlc.low)),
   ("Donchian_middle", donchianMid (d.map Ohlc.high) (d.map Ohlc.low))]

/-- The dictionary built by `calculate_volume_indicators`. -/
def volume_indicator_list (d : List Ohlc) :
    List (String × List (Option ℚ)) :=
  [("OBV", obvSeries (d.map Ohlc.close) (d.map Ohlc.vol)),
   ("MFI", mfiSeries d),
   ("VWAP", vwapSeries d),
   ("Volume_SMA", sma 20 (d.map Ohlc.vol))]

/-- The `TechnicalAnalyzer` object: `self.data` (copied at `__init__`,
never mutated) and the `self.indicators` dictionary, modelled by its
lookup function. -/
structure Analyzer where
  data : List Ohlc
  indicators : String → Option (List (Option ℚ))

/-- `TechnicalAnalyzer.__init__`: copy the data, start with an empty
indicator dictionary. -/
def Analyzer.init (d : List Ohlc) : Analyzer :=
  ⟨d, fun _ => none⟩

/-- `self.indicators.update(new)`: keys of `new` override, all other keys
keep their previous binding. -/
def updateDict (m : String → Option (List (Option ℚ)))
    (new : List (String × List (Option ℚ))) :
    String → Option (List (Option ℚ)) :=
  fun k =>
    match lookupPairs new k with
    | some v => some v
    | none => m k

/-- `TechnicalAnalyzer.calculate_trend_indicators`: build the family
dictionary from `self.data`, merge it into `self.indicators`, return it. -/
def calculate_trend_indicators (a : Analyzer) :
    Analyzer × List (String × List (Option ℚ)) :=
  let ind := trend_indicator_list a.data
  (⟨a.data, updateDict a.indicators ind⟩, ind)

/-- `TechnicalAnalyzer.calculate_momentum_indicators`. -/
def calculate_momentum_indicators (a : Analyzer) :
    Analyzer × List (String × List (Option ℚ)) :=
  let ind := momentum_indicator_list a.data
  (⟨a.data, updateDict a.indicators ind⟩, ind)

/-- `TechnicalAnalyzer.calculate_volatility_indicators`. -/
def calculate_volatility_indicators (a : Analyzer) :
    Analyzer × List (String × List (Option ℚ)) :=
  let ind := volatility_indicator_list a.data
  (⟨a.data, updateDict a.indicators ind⟩, ind)

/-- `TechnicalAnalyzer.calculate_volume_indicators`. -/
def calculate_volume_indicators (a : Analyzer) :
    Analyzer × List (String × List (Option ℚ)) :=
  let ind := volume_indicator_list a.data
  (⟨a.data, updateDict a.indicators ind⟩, ind)

/-- `TechnicalAnalyzer.calculate_all_indicators`: run the four family
calculators in order, then return `self.indicators`. -/
def calculate_all_indicators (a : Analyzer) :
    Analyzer × (String → Option (List (Option ℚ))) :=
  let a1 := (calculate_trend_indicators a).1
  let a2 := (calculate_momentum_indicators a1).1
  let a3 := (calculate_volatility_indicators a2).1
  let a4 := (calculate_volume_indicators a3).1
  (a4, a4.indicators)

/-! ### Helper lemmas -/

lemma fetchLoop_fail_step (convert : List RawCandle → List Bar)
    (o : Nat → AttemptOutcome) (start fuel : Nat) (k : FailKind)
    (h : o start = .fail k) :
    fetchLoop convert o start (fuel + 1) = fetchLoop convert o (start + 1) fuel := by
  simp [fetchLoop, h]

lemma fetchLoop_none (convert : List RawCandle → List Bar)
    (o : Nat → AttemptOutcome) :
    ∀ fuel start, (∀ i, i < fuel → (o (start + i)).isFailure = true) →
      fetchLoop convert o start fuel = none := by
  intro fuel
  induction fuel with
  | zero => intro start _; rfl
  | succ n ih =>
    intro start h
    have h0 := h 0 (Nat.succ_pos n)
    cases ho : o start with
    | ok recs => rw [Nat.add_zero, ho] at h0; simp [AttemptOutcome.isFailure] at h0
    | fail k =>
      rw [fetchLoop_fail_step convert o start n k ho]
      exact ih (start + 1) fun i hi => by
        have := h (i + 1) (Nat.succ_lt_succ hi)
        rwa [show start + (i + 1) = start + 1 + i by omega] at this

lemma fetchLoop_first_ok (convert : List RawCandle → List Bar)
    (o : Nat → AttemptOutcome) :
    ∀ fuel start j recs, j < fuel → o (start + j) = .ok recs →
      (∀ i, i < j → (o (start + i)).isFailure = true) →
      fetchLoop convert o start fuel = some (convert recs) := by
  intro fuel
  induction fuel with
  | zero => intro start j recs hj; omega
  | succ n ih =>
    intro start j recs hj hok hprev
    cases j with
    | zero =>
      rw [Nat.add_zero] at hok
      simp [fetchLoop, hok]
    | succ j' =>
      have h0 := hprev 0 (Nat.succ_pos j')
      rw [Nat.add_zero] at h0
      cases ho : o start with
      | ok recs' => rw [ho] at h0; simp [AttemptOutcome.isFailure] at h0
      | fail k =>
        rw [fetchLoop_fail_step convert o start n k ho]
        refine ih (start + 1) j' recs (by omega) ?_ ?_
        · rwa [show start + 1 + j' = start + (j' + 1) by omega]
        · intro i hi
          have := hprev (i + 1) (Nat.succ_lt_succ hi)
          rwa [show start + (i + 1) = start + 1 + i by omega] at this

lemma initial_score : initialSignals.score = 0 := rfl

lemma applyRsi_score (rv : Option ℚ) (s : SignalState) :
    (applyRsi rv s).score = s.score + rsiDelta rv := by
  cases rv with
  | none => simp [applyRsi, rsiDelta]
  | some r =>
    simp only [applyRsi, rsiDelta]
    split_ifs <;> simp <;> omega

lemma applyMacd_score (mc sc mp sp : Option ℚ) (s : SignalState) :
    (applyMacd mc sc mp sp s).score = s.score + macdDelta mc sc mp sp := by
  cases mc <;> cases sc <;> cases mp <;> cases sp <;>
    simp only [applyMacd, macdDelta] <;> try simp
  split_ifs <;> simp <;> omega

lemma applyBb_score (bv : Option ℚ) (s : SignalState) :
    (applyBb bv s).score = s.score + bbDelta bv := by
  cases bv with
  | none => simp [applyBb, bbDelta]
  | some b =>
    simp only [applyBb, bbDelta]
    split_ifs <;> simp <;> omega

lemma applySma_score (close m20 m50 : Option ℚ) (s : SignalState) :
    (applySma close m20 m50 s).score = s.score + smaDelta close m20 m50 := by
  cases close <;> cases m20 <;> cases m50 <;>
    simp only [applySma, smaDelta] <;> try simp
  split_ifs <;> simp <;> omega

lemma applyWr_score (wv : Option ℚ) (s : SignalState) :
    (applyWr wv s).score = s.score + wrDelta wv := by
  cases wv with
  | none => simp [applyWr, wrDelta]
  | some w =>
    simp only [applyWr, wrDelta]
    split_ifs <;> simp <;> omega

lemma applyMfi_score (mv : Option ℚ) (s : SignalState) :
    (applyMfi mv s).score = s.score + mfiDelta mv := by
  cases mv with
  | none => simp [applyMfi, mfiDelta]
  | some m =>
    simp only [applyMfi, mfiDelta]
    split_ifs <;> simp <;> omega

lemma rsiDelta_bound (rv : Option ℚ) : -20 ≤ rsiDelta rv ∧ rsiDelta rv ≤ 20 := by
  cases rv with
  | none => simp [rsiDelta]
  | some r => simp only [rsiDelta]; split_ifs <;> omega

lemma macdDelta_bound (mc sc mp sp : Option ℚ) :
    -25 ≤ macdDelta mc sc mp sp ∧ macdDelta mc sc mp sp ≤ 25 := by
  cases mc <;> cases sc <;> cases mp <;> cases sp <;>
    simp only [macdDelta] <;> try omega

lemma bbDelta_bound (bv : Option ℚ) : -15 ≤ bbDelta bv ∧ bbDelta bv ≤ 15 := by
  cases bv with
  | none => simp [bbDelta]
  | some b => simp only [bbDelta]; split_ifs <;> omega

lemma smaDelta_bound (close m20 m50 : Option ℚ) :
    -15 ≤ smaDelta close m20 m50 ∧ smaDelta close m20 m50 ≤ 15 := by
  cases close <;> cases m20 <;> cases m50 <;>
    simp only [smaDelta] <;> try omega

lemma wrDelta_bound (wv : Option ℚ) : -10 ≤ wrDelta wv ∧ wrDelta wv ≤ 10 := by
  cases wv with
  | none => simp [wrDelta]
  | some w => simp only [wrDelta]; split_ifs <;> omega

lemma mfiDelta_bound (mv : Option ℚ) : -10 ≤ mfiDelta mv ∧ mfiDelta mv ≤ 10 := by
  cases mv with
  | none => simp [mfiDelta]
  | some m => simp only [mfiDelta]; split_ifs <;> omega

lemma score_eq_delta_sum (close : Option ℚ) (rv : Option ℚ)
    (mc mp sc sp : Option ℚ) (bv a b wv fv : Option ℚ) :
    (generate_trading_signals close
        ⟨some rv, some (mc, mp), some (sc, sp), some bv, some a, some b,
         some wv, some fv⟩).score =
      rsiDelta rv + macdDelta mc sc mp sp + bbDelta bv + smaDelta close a b +
        wrDelta wv + mfiDelta fv := by
  simp only [generate_trading_signals]
  rw [applyMfi_score, applyWr_score, applySma_score, applyBb_score,
    applyMacd_score, applyRsi_score, initial_score]
  ring

lemma score_bound (close : Option ℚ) (ind : IndicatorSnapshot) :
    -95 ≤ (generate_trading_signals close ind).score ∧
      (generate_trading_signals close ind).score ≤ 95 := by
  obtain ⟨r, m, ms, bb, a, b, w, f⟩ := ind
  simp only [generate_trading_signals]
  cases r with
  | none => simp [initialSignals]
  | some rv =>
    have h1 := rsiDelta_bound rv
    cases m with
    | none => rw [applyRsi_score, initial_score]; omega
    | some mcp =>
      cases ms with
      | none => rw [applyRsi_score, initial_score]; omega
      | some scp =>
        have h2 := macdDelta_bound mcp.1 scp.1 mcp.2 scp.2
        cases bb with
        | none =>
          rw [applyMacd_score, applyRsi_score, initial_score]; omega
        | some bv =>
          have h3 := bbDelta_bound bv
          cases a with
          | none =>
            rw [applyBb_score, applyMacd_score, applyRsi_score, initial_score]
            omega
          | some m20 =>
            cases b with
            | none =>
              rw [applyBb_score, applyMacd_score, applyRsi_score, initial_score]
              omega
            | some m50 =>
              have h4 := smaDelta_bound close m20 m50
              cases w with
              | none =>
                rw [applySma_score, applyBb_score, applyMacd_score,
                  applyRsi_score, initial_score]
                omega
              | some wv =>
                have h5 := wrDelta_bound wv
                cases f with
                | none =>
                  rw [applyWr_score, applySma_score, applyBb_score,
                    applyMacd_score, applyRsi_score, initial_score]
                  omega
                | some fv =>
                  have h6 := mfiDelta_bound fv
                  rw [applyMfi_score, applyWr_score, applySma_score,
                    applyBb_score, applyMacd_score, applyRsi_score,
                    initial_score]
                  omega

/-! ### Claim theorems -/

/-- C1 (counterexample): the Binance conversion path does not sort: a
successful payload of two well-formed records with descending timestamps
is returned as a 2-element series whose timestamps are not strictly
increasing. -/
theorem c1_counterexample :
    ¬ List.Sorted (· < ·)
        ((convert_binance_to_ohlcv
          [⟨2, 1, 1, 1, 1, 1⟩, ⟨1, 1, 1, 1, 1, 1⟩]).map Bar.ts) ∧
      (convert_binance_to_ohlcv
        [⟨2, 1, 1, 1, 1, 1⟩, ⟨1, 1, 1, 1, 1, 1⟩]).length = 2 := by
  exact ⟨by decide, by decide⟩

/-- C1 (amended): both conversions preserve the record count; the Bitget
conversion sorts ascending by timestamp, and its timestamps are strictly
increasing whenever the raw timestamps are pairwise distinct; the Binance
conversion returns the records in payload order without sorting. -/
theorem c1_conversion_length_order (data : List RawCandle) :
    (convert_bitget_to_ohlcv data).length = data.length ∧
    (convert_binance_to_ohlcv data).length = data.length ∧
    List.Sorted (· ≤ ·) ((convert_bitget_to_ohlcv data).map Bar.ts) ∧
    (convert_binance_to_ohlcv data).map Bar.ts = data.map RawCandle.ts ∧
    ((data.map RawCandle.ts).Nodup →
      List.Sorted (· < ·) ((convert_bitget_to_ohlcv data).map Bar.ts)) := by
  have hsorted : List.Sorted (· ≤ ·)
      ((convert_bitget_to_ohlcv data).map Bar.ts) := by
    have h := List.sorted_insertionSort tsLe (data.map rawToBar)
    rw [convert_bitget_to_ohlcv, List.Sorted, List.pairwise_map]
    exact h
  refine ⟨by simp [convert_bitget_to_ohlcv], by simp [convert_binance_to_ohlcv],
    hsorted, ?_, ?_⟩
  · simp only [convert_binance_to_ohlcv, List.map_map]
    rfl
  · intro h
    have hperm : List.Perm ((convert_bitget_to_ohlcv data).map Bar.ts)
        (data.map RawCandle.ts) := by
      have hp := (List.perm_insertionSort tsLe (data.map rawToBar)).map Bar.ts
      rw [convert_bitget_to_ohlcv]
      simpa [List.map_map] using hp
    exact List.Sorted.lt_of_le hsorted (hperm.nodup_iff.mpr h)

/-- C1 (witness): the strict-increase conclusion of
`c1_conversion_length_order` at a concrete payload with distinct,
descending timestamps. -/
theorem c1_witness :
    (([⟨2, 1, 1, 1, 1, 1⟩, ⟨1, 1, 1, 1, 1, 1⟩] :
        List RawCandle).map RawCandle.ts).Nodup ∧
      List.Sorted (· < ·)
        ((convert_bitget_to_ohlcv
          [⟨2, 1, 1, 1, 1, 1⟩, ⟨1, 1, 1, 1, 1, 1⟩]).map Bar.ts) :=
  ⟨by decide,
    (c1_conversion_length_order [⟨2, 1, 1, 1, 1, 1⟩, ⟨1, 1, 1, 1, 1, 1⟩]).2.2.2.2
      (by decide)⟩

/-- C2: Bitget is consulted first — its earliest successful attempt within
the budget is returned (for every behaviour of the Binance environment);
Binance is consulted exactly when all Bitget attempts fail, with a fresh
full budget; when both providers exhaust their budgets the result is
`none`, and the fetch boundary is a total function. -/
theorem c2_failover_order (n : Nat) (ob obin : Nat → AttemptOutcome) :
    (∀ j recs, j < n → ob j = .ok recs →
      (∀ i, i < j → (ob i).isFailure = true) →
      get_crypto_data ob obin n = some (convert_bitget_to_ohlcv recs)) ∧
    ((∀ i, i < n → (ob i).isFailure = true) →
      get_crypto_data ob obin n = get_crypto_data_binance obin n) ∧
    ((∀ i, i < n → (ob i).isFailure = true) →
      ∀ j recs, j < n → obin j = .ok recs →
        (∀ i, i < j → (obin i).isFailure = true) →
        get_crypto_data ob obin n = some (convert_binance_to_ohlcv recs)) ∧
    ((∀ i, i < n → (ob i).isFailure = true) →
      (∀ i, i < n → (obin i).isFailure = true) →
      get_crypto_data ob obin n = none) := by
  have hbit : ∀ j recs, j < n → ob j = .ok recs →
      (∀ i, i < j → (ob i).isFailure = true) →
      get_crypto_data_bitget ob n = some (convert_bitget_to_ohlcv recs) := by
    intro j recs hj hok hprev
    exact fetchLoop_first_ok convert_bitget_to_ohlcv ob n 0 j recs hj
      (by simpa using hok) (by simpa using hprev)
  have hbitnone : (∀ i, i < n → (ob i).isFailure = true) →
      get_crypto_data_bitget ob n = none := by
    intro h
    exact fetchLoop_none convert_bitget_to_ohlcv ob n 0 (by simpa using h)
  refine ⟨?_, ?_, ?_, ?_⟩
  · intro j recs hj hok hprev
    rw [get_crypto_data, hbit j recs hj hok hprev]
  · intro h
    rw [get_crypto_data, hbitnone h]
  · intro h j recs hj hok hprev
    rw [get_crypto_data, hbitnone h]
    exact fetchLoop_first_ok convert_binance_to_ohlcv obin n 0 j recs hj
      (by simpa using hok) (by simpa using hprev)
  · intro h h2
    rw [get_crypto_data, hbitnone h]
    exact fetchLoop_none convert_binance_to_ohlcv obin n 0 (by simpa using h2)

/-- C2 (witness): with every Bitget attempt failing and Binance succeeding
on its second attempt, the fetch returns the Binance conversion. -/
theorem c2_witness :
    get_crypto_data (fun _ => .fail .network)
      (fun i => if i = 0 then .fail .empty else .ok [⟨1, 1, 1, 1, 1, 1⟩]) 2 =
      some (convert_binance_to_ohlcv [⟨1, 1, 1, 1, 1, 1⟩]) :=
  (c2_failover_order 2 (fun _ => .fail .network)
      (fun i => if i = 0 then .fail .empty else .ok [⟨1, 1, 1, 1, 1, 1⟩])).2.2.1
    (by decide) 1 [⟨1, 1, 1, 1, 1, 1⟩] (by decide) (by decide) (by decide)

/-- C3: every failure class — network, rate-limited, empty, malformed —
makes the provider loop continue with the next attempt (uniformly in the
class `k`), and a provider whose attempts all fail returns `none` rather
than surfacing any error. -/
theorem c3_retryable_failures (convert : List RawCandle → List Bar)
    (o : Nat → AttemptOutcome) (start fuel n : Nat) (k : FailKind) :
    (o start = .fail k →
      fetchLoop convert o start (fuel + 1) = fetchLoop convert o (start + 1) fuel) ∧
    ((∀ i, i < n → (o i).isFailure = true) →
      get_crypto_data_bitget o n = none ∧ get_crypto_data_binance o n = none) := by
  constructor
  · intro h
    exact fetchLoop_fail_step convert o start fuel k h
  · intro h
    exact ⟨fetchLoop_none convert_bitget_to_ohlcv o n 0 (by simpa using h),
      fetchLoop_none convert_binance_to_ohlcv o n 0 (by simpa using h)⟩

/-- C3 (witness): a rate-limited first attempt is retried, and a provider
with three failing attempts ends in `none` on both providers. -/
theorem c3_witness :
    fetchLoop convert_bitget_to_ohlcv (fun _ => .fail .rateLimited) 0 3 =
      fetchLoop convert_bitget_to_ohlcv (fun _ => .fail .rateLimited) 1 2 ∧
    get_crypto_data_bitget (fun _ => .fail .rateLimited) 3 = none ∧
    get_crypto_data_binance (fun _ => .fail .rateLimited) 3 = none :=
  ⟨(c3_retryable_failures convert_bitget_to_ohlcv (fun _ => .fail .rateLimited)
      0 2 3 .rateLimited).1 rfl,
    ((c3_retryable_failures convert_bitget_to_ohlcv (fun _ => .fail .rateLimited)
      0 2 3 .rateLimited).2 (by decide)).1,
    ((c3_retryable_failures convert_bitget_to_ohlcv (fun _ => .fail .rateLimited)
      0 2 3 .rateLimited).2 (by decide)).2⟩

/-- C4 (counterexample): the canonical token `"1hour"` has no mapping in
the provider vocabulary table; the code substitutes the fixed default
`"1d"`, while the nearest coarser supported Binance value is `"1h"`. -/
theorem c4_counterexample :
    binance_interval ("1hour") = "1d" ∧
    nearestCoarserBinance ("1hour") = some ("1h") ∧
    ("1d" : String) ≠ "1h" :=
  ⟨by decide, by decide, by decide⟩

/-- C4 (amended): an unmapped granularity token falls back to the fixed
default `"1d"` regardless of its duration, and no warning about the
substitution is produced (the fetch emits only its ordinary progress
messages). -/
theorem c4_fallback_default (g : String)
    (h : lookupPairs granularity_map g = none) : binance_interval g = "1d" := by
  rw [binance_interval, h]
  rfl

/-- C4 (witness): `"1hour"` is unmapped and becomes `"1d"`. -/
theorem c4_witness :
    lookupPairs granularity_map ("1hour") = none ∧
      binance_interval ("1hour") = "1d" :=
  ⟨by decide, c4_fallback_default ("1hour") (by decide)⟩

/-- C5: on the prescribed state (RSI14 = 25, flat MACD pair, percent-b
0.5, close above both SMAs, Williams −50, MFI 50) the report is exactly
buy = ["RSI超卖 (25.0)", "价格高于主要均线"], sell = [], neutral = [],
score = 35. -/
theorem c5_concrete_scenario (c s20 s50 : ℚ) (h20 : c > s20) (h50 : c > s50) :
    generate_trading_signals (some c)
      ⟨some (some 25), some (some 1, some 1), some (some 1, some 1),
       some (some (mkRat 1 2)), some (some s20), some (some s50),
       some (some (-50)), some (some 50)⟩ =
      ⟨["RSI超卖 (25.0)", "价格高于主要均线"], [], [], 35⟩ := by
  have hpre : applyBb (some (mkRat 1 2))
      (applyMacd (some 1) (some 1) (some 1) (some 1)
        (applyRsi (some 25) initialSignals)) =
      ⟨["RSI超卖 (25.0)"], [], [], 20⟩ := by
    decide
  have hsma : applySma (some c) (some s20) (some s50)
      ⟨["RSI超卖 (25.0)"], [], [], 20⟩ =
      ⟨["RSI超卖 (25.0)", "价格高于主要均线"], [], [], 35⟩ := by
    simp only [applySma]
    rw [if_pos ⟨h20, h50⟩]
    decide
  show applyMfi (some 50) (applyWr (some (-50)) (applySma (some c) (some s20)
    (some s50) (applyBb (some (mkRat 1 2)) (applyMacd (some 1) (some 1) (some 1)
    (some 1) (applyRsi (some 25) initialSignals))))) = _
  rw [hpre, hsma]
  decide

/-- C5 (witness): the scenario at close 100, SMA20 = 90, SMA50 = 80. -/
theorem c5_witness :
    (100 : ℚ) > 90 ∧ (100 : ℚ) > 80 ∧
      generate_trading_signals (some 100)
        ⟨some (some 25), some (some 1, some 1), some (some 1, some 1),
         some (some (mkRat 1 2)), some (some 90), some (some 80),
         some (some (-50)), some (some 50)⟩ =
        ⟨["RSI超卖 (25.0)", "价格高于主要均线"], [], [], 35⟩ :=
  ⟨by norm_num, by norm_num,
    c5_concrete_scenario 100 90 80 (by norm_num) (by norm_num)⟩

/-- C6: every rule whose required value(s) are NaN is the identity on the
signal state — no entry in any category, no weight — and on the all-NaN
snapshot (every key present, every value NaN) the report is empty with
score 0; the scorer is a total function. -/
theorem c6_nan_rules_skipped :
    (∀ s, applyRsi none s = s) ∧
    (∀ b c d s, applyMacd none b c d s = s) ∧
    (∀ a c d s, applyMacd a none c d s = s) ∧
    (∀ a b d s, applyMacd a b none d s = s) ∧
    (∀ a b c s, applyMacd a b c none s = s) ∧
    (∀ s, applyBb none s = s) ∧
    (∀ m20 m50 s, applySma none m20 m50 s = s) ∧
    (∀ cl m50 s, applySma cl none m50 s = s) ∧
    (∀ cl m20 s, applySma cl m20 none s = s) ∧
    (∀ s, applyWr none s = s) ∧
    (∀ s, applyMfi none s = s) ∧
    generate_trading_signals none
      ⟨some none, some (none, none), some (none, none), some none,
       some none, some none, some none, some none⟩ = ⟨[], [], [], 0⟩ := by
  refine ⟨fun s => rfl, fun b c d s => rfl, ?_, ?_, ?_, fun s => rfl,
    fun m20 m50 s => rfl, ?_, ?_, fun s => rfl, fun s => rfl, rfl⟩
  · intro a c d s
    cases a <;> rfl
  · intro a b d s
    cases a <;> cases b <;> rfl
  · intro a b c s
    cases a <;> cases b <;> cases c <;> rfl
  · intro cl m50 s
    cases cl <;> rfl
  · intro cl m20 s
    cases cl <;> cases m20 <;> rfl

/-- C7: the backoff term before attempt k+1 is `base * 2^k` plus jitter,
so for every jitter value of at least the sampled minimum it dominates
the non-jittered exponential term of attempt k; a rate-limited failure
raises the delay to at least the provider's floor (10 + jitter for
Bitget, 5 + jitter for Binance) and never below the plain backoff. -/
theorem c7_backoff_monotonic (base j jr : ℚ) (k : Nat) :
    (1 ≤ j → base * 2 ^ k ≤ backoff_delay base k j) ∧
    (5 ≤ jr → 10 + jr ≤ bitget_rate_limited_delay base k j jr) ∧
    (2 ≤ jr → 5 + jr ≤ binance_rate_limited_delay base k j jr) ∧
    backoff_delay base k j ≤ bitget_rate_limited_delay base k j jr ∧
    backoff_delay base k j ≤ binance_rate_limited_delay base k j jr := by
  refine ⟨?_, ?_, ?_, le_max_left _ _, le_max_left _ _⟩
  · intro hj
    rw [backoff_delay]
    linarith
  · intro hjr
    exact le_max_right _ _
  · intro hjr
    exact le_max_right _ _

/-- C7 (witness): at base 2, attempt index 1, jitter 1, floor jitter 5. -/
theorem c7_witness :
    (2 : ℚ) * 2 ^ 1 ≤ backoff_delay 2 1 1 ∧
    10 + 5 ≤ bitget_rate_limited_delay 2 1 1 5 ∧
    5 + 5 ≤ binance_rate_limited_delay 2 1 1 5 :=
  ⟨(c7_backoff_monotonic 2 1 5 1).1 (by norm_num),
    (c7_backoff_monotonic 2 1 5 1).2.1 (by norm_num),
    (c7_backoff_monotonic 2 1 5 1).2.2.1 (by norm_num)⟩

/-- C8 (counterexample): the score can never exceed +100 or fall below
−100 — the triggered-weight budget per side is 95, so the claim's
"can exceed ±100" is impossible for every input. -/
theorem c8_counterexample :
    ¬ ∃ close ind, 100 < (generate_trading_signals close ind).score ∨
      (generate_trading_signals close ind).score < -100 := by
  rintro ⟨c, i, hi⟩
  obtain ⟨hl, hr⟩ := score_bound c i
  rcases hi with h1 | h1 <;> omega

/-- C8 (amended): the aggregate score is the unclamped integer sum of the
per-rule weight contributions of exactly the triggered rules, with no
clamping applied; it ranges over [−95, 95] (attained when all six rules
align on one side) and therefore cannot exceed ±100. -/
theorem c8_unclamped_sum :
    (∀ close rv mc mp sc sp bv a b wv fv,
      (generate_trading_signals close
          ⟨some rv, some (mc, mp), some (sc, sp), some bv, some a, some b,
           some wv, some fv⟩).score =
        rsiDelta rv + macdDelta mc sc mp sp + bbDelta bv + smaDelta close a b +
          wrDelta wv + mfiDelta fv) ∧
    (∀ close ind, -95 ≤ (generate_trading_signals close ind).score ∧
      (generate_trading_signals close ind).score ≤ 95) ∧
    (generate_trading_signals (some 100)
        ⟨some (some 25), some (some 1, some 0), some (some 0, some 0),
         some (some (mkRat 1 10)), some (some 50), some (some 40),
         some (some (-90)), some (some 10)⟩).score = 95 ∧
    (generate_trading_signals (some 10)
        ⟨some (some 75), some (some 0, some 0), some (some 1, some 0),
         some (some (mkRat 9 10)), some (some 50), some (some 40),
         some (some (-10)), some (some 90)⟩).score = -95 :=
  ⟨fun close rv mc mp sc sp bv a b wv fv =>
      score_eq_delta_sum close rv mc mp sc sp bv a b wv fv,
    score_bound, by decide, by decide⟩

/-- C9: recomputing the full modelled indicator set from the same data is
deterministic — a second `calculate_all_indicators` call on the analyzer
state left by the first returns the identical indicator mapping (same
values, same warm-up NaN positions) — and no call mutates the stored
data. -/
theorem c9_recompute_deterministic :
    (∀ d : List Ohlc,
      (calculate_all_indicators (calculate_all_indicators (Analyzer.init d)).1).2 =
        (calculate_all_indicators (Analyzer.init d)).2) ∧
    ∀ a : Analyzer, (calculate_all_indicators a).1.data = a.data := by
  refine ⟨?_, fun a => rfl⟩
  intro d
  funext k
  simp only [calculate_all_indicators, calculate_trend_indicators,
    calculate_momentum_indicators, calculate_volatility_indicators,
    calculate_volume_indicators, Analyzer.init, updateDict]
  cases h4 : lookupPairs (volume_indicator_list d) k <;>
    cases h3 : lookupPairs (volatility_indicator_list d) k <;>
      cases h2 : lookupPairs (momentum_indicator_list d) k <;>
        cases h1 : lookupPairs (trend_indicator_list d) k <;>
          simp [h1, h2, h3, h4]

/-- C10: when a rule's indicator key is missing, the scorer still returns
normally with the signals accumulated by every rule before the failure
point, and all later rules are silently skipped; concretely, RSI 25 with
the MACD key missing yields the partial report with only the RSI entry
and score 20. -/
theorem c10_partial_report :
    (∀ close m ms bb a b w f,
      generate_trading_signals close ⟨none, m, ms, bb, a, b, w, f⟩ =
        initialSignals) ∧
    (∀ close rv ms bb a b w f,
      generate_trading_signals close ⟨some rv, none, ms, bb, a, b, w, f⟩ =
        applyRsi rv initialSignals) ∧
    (∀ close rv m bb a b w f,
      generate_trading_signals close ⟨some rv, some m, none, bb, a, b, w, f⟩ =
        applyRsi rv initialSignals) ∧
    (∀ close rv m ms a b w f,
      generate_trading_signals close ⟨some rv, some m, some ms, none, a, b, w, f⟩ =
        applyMacd m.1 ms.1 m.2 ms.2 (applyRsi rv initialSignals)) ∧
    (∀ close rv m ms bb b w f,
      generate_trading_signals close
          ⟨some rv, some m, some ms, some bb, none, b, w, f⟩ =
        applyBb bb (applyMacd m.1 ms.1 m.2 ms.2 (applyRsi rv initialSignals))) ∧
    (∀ close rv m ms bb a w f,
      generate_trading_signals close
          ⟨some rv, some m, some ms, some bb, some a, none, w, f⟩ =
        applyBb bb (applyMacd m.1 ms.1 m.2 ms.2 (applyRsi rv initialSignals))) ∧
    (∀ close rv m ms bb a b f,
      generate_trading_signals close
          ⟨some rv, some m, some ms, some bb, some a, some b, none, f⟩ =
        applySma close a b
          (applyBb bb (applyMacd m.1 ms.1 m.2 ms.2
            (applyRsi rv initialSignals)))) ∧
    (∀ close rv m ms bb a b w,
      generate_trading_signals close
          ⟨some rv, some m, some ms, some bb, some a, some b, some w, none⟩ =
        applyWr w (applySma close a b
          (applyBb bb (applyMacd m.1 ms.1 m.2 ms.2
            (applyRsi rv initialSignals))))) ∧
    generate_trading_signals (some 100)
        ⟨some (some 25), none, none, none, none, none, none, none⟩ =
      ⟨["RSI超卖 (25.0)"], [], [], 20⟩ :=
  ⟨fun close m ms bb a b w f => rfl, fun close rv ms bb a b w f => rfl,
    fun close rv m bb a b w f => rfl, fun close rv m ms a b w f => rfl,
    fun close rv m ms bb b w f => rfl, fun close rv m ms bb a w f => rfl,
    fun close rv m ms bb a b f => rfl, fun close rv m ms bb a b w => rfl,
    by decide⟩
